import Mathlib

/-!
Verification of the SPECTRE dataset loader (`src/spectre/utils.py` and
`src/spectre/dataset.py`).

The external file readers (`np.load`, CSV parsing, resampling) are out of
scope and are modelled as oracles: a frame oracle `String → Int → List ℚ`
(folder, integration time) and a spectrum oracle `String → Int × Int → List ℚ`
(folder, wavelength range). Array values are rationals, arrays are lists.
Every call the core makes into a reader is recorded as a `ReadEvent`, so
that theorems can speak about which folder, integration time and wavelength
range each read actually used.
-/

namespace Spectre

/-- `EPSILON = 1e-8` from `utils.py`. -/
def EPSILON : ℚ := 1 / 100000000

/-- Default integration time, the declared default of `int_time` in
`utils.read_measurement`, `utils.read_frame` and the `SPECTRE` constructor. -/
def DEFAULT_INT_TIME : Int := 1400

/-- Default wavelength range, the declared default of `lamb_range` in
`utils.read_measurement`, `utils.read_spectrum` and the `SPECTRE` constructor. -/
def DEFAULT_LAMB_RANGE : Int × Int := (450, 690)

/-- Maximum of two rationals, written as a conditional so that it evaluates
by kernel reduction. -/
def rmax (a b : ℚ) : ℚ := if a < b then b else a

/-- Minimum of two rationals, written as a conditional so that it evaluates
by kernel reduction. -/
def rmin (a b : ℚ) : ℚ := if b < a then b else a

/-- `np.clip(x, a_min=lo, a_max=hi)`: values below `lo` become `lo`, values
above `hi` become `hi` (maximum applied first, then minimum). -/
def clip (x lo hi : ℚ) : ℚ := rmin hi (rmax lo x)

/-- `utils.normalize_array(array, dark, white)`:
`np.clip((array - dark) / (white - dark), a_min=EPSILON, a_max=1)`,
element-wise over arrays of a common shape. -/
def normalize_array (array dark white : List ℚ) : List ℚ :=
  (array.zip (dark.zip white)).map fun adw =>
    clip ((adw.1 - adw.2.1) / (adw.2.2 - adw.2.1)) EPSILON 1

/-- One call of the core into the external readers, with the arguments used. -/
inductive ReadEvent where
  | frame (folder : String) (int_time : Int)
  | spectrum (folder : String) (lamb_range : Int × Int)
deriving DecidableEq

/-- `utils.read_frame(folder, int_time)`: loads the frame for the given
integration time and clips it from below at `EPSILON`
(`np.clip(frame, a_min=EPSILON, a_max=None)`). Returns the array together
with the read event it performs. -/
def read_frame (rf : String → Int → List ℚ) (folder : String) (int_time : Int) :
    List ℚ × List ReadEvent :=
  ((rf folder int_time).map (fun x => rmax EPSILON x), [ReadEvent.frame folder int_time])

/-- `utils.read_spectrum(folder, lamb_range)`: the CSV parsing, clipping and
per-nanometer resampling are the oracle's business; the model records which
folder and wavelength range the read used. -/
def read_spectrum (rs : String → Int × Int → List ℚ) (folder : String)
    (lamb_range : Int × Int) : List ℚ × List ReadEvent :=
  (rs folder lamb_range, [ReadEvent.spectrum folder lamb_range])

/-- `utils.read_measurement(folder, int_time, lamb_range)`: calls
`read_frame(folder, int_time)` and then `read_spectrum(folder)` — the source
passes no wavelength range to `read_spectrum`, so that call always uses the
declared default `(450, 690)` and the `lamb_range` argument of
`read_measurement` itself is never consulted. -/
def read_measurement (rf : String → Int → List ℚ) (rs : String → Int × Int → List ℚ)
    (folder : String) (int_time : Int) (lamb_range : Int × Int) :
    (List ℚ × List ℚ) × List ReadEvent :=
  let f := read_frame rf folder int_time
  let s := read_spectrum rs folder DEFAULT_LAMB_RANGE
  ((f.1, s.1), f.2 ++ s.2)

/-- Element-wise product of two arrays (numpy `*` on same-shape arrays). -/
def mul_arrays (a b : List ℚ) : List ℚ := List.zipWith (· * ·) a b

/-- `np.mean` of a 1-D array: sum divided by length. -/
def list_mean (l : List ℚ) : ℚ := l.sum / (l.length : ℚ)

/-- The path separator, for `os.path.join`. -/
def slashStr : String := "/"

/-- `os.path.join a b` for a relative second component: `a ++ b` when `a`
already ends with the separator, `a ++ sep ++ b` otherwise. -/
def joinPath (a b : String) : String :=
  if a.endsWith slashStr then a ++ b else a ++ slashStr ++ b

/-- Name of the dark reference folder. -/
def darkName : String := "Dark"

/-- Name of the white reference folder. -/
def whiteName : String := "White"

/-- The hidden-entry marker that `_scan_root` filters on (`f.startswith(".")`). -/
def hiddenMarker : String := "."

/-- Default cache directory used by `_init_dataset` when `cache_dir is None`. -/
def defaultCacheDir : String := ".spectre_cache/"

/-- File name of the cache record inside the cache directory. -/
def cacheFileName : String := "dataset_cache.pickle"

/-- The constructor parameters of the `SPECTRE` class (`dataset.py`). -/
structure Config where
  root_dir : String
  int_time : Int
  shuffle : Bool
  cache_dir : Option String
  clean_threshold : ℚ
  lamb_range : Int × Int
  cache : Bool
  augment : Bool

/-- One entry of `self.meas_list`: a measurement path, plus an optional
second path. `none` in the second slot marks a singular (non-augmented)
sample; `some q` marks an augmented sample combining the two paths. -/
abbrev Desc := String × Option String

/-- `SPECTRE._scan_root`: list the entries under the root, drop hidden
entries and the two reference folders, build the singular list; with
augmentation also build the cross list (each element of the first half of
the singular list paired with each element of the second half, halves split
at `len // 2`) and the square list (each folder paired with itself), and
return `singular ++ cross ++ square`. `entries` stands for `os.listdir`. -/
def singular_list (entries : List String) (root_dir : String) : List Desc :=
  (entries.filter fun f =>
      !f.startsWith hiddenMarker && !(f == darkName) && !(f == whiteName)).map
    fun f => (joinPath root_dir f, none)

/-- The body of `SPECTRE._scan_root`, see `singular_list` for the filter. -/
def scan_root (entries : List String) (root_dir : String) (augment : Bool) : List Desc :=
  let raw_meas_list := singular_list entries root_dir
  if !augment then raw_meas_list
  else
    let half := raw_meas_list.length / 2
    let multiplied_list := (raw_meas_list.take half).bind fun meas_a =>
      (raw_meas_list.drop half).map fun meas_b => (meas_a.1, some meas_b.1)
    let squared_list := raw_meas_list.map fun meas => (meas.1, some meas.1)
    raw_meas_list ++ multiplied_list ++ squared_list

/-- The combined normalized spectrum of one descriptor, as computed inside
the cleaning loop of `_init_dataset`: for a singular sample, the normalized
spectrum of its one path; for an augmented sample, the element-wise product
of the two paths' independently normalized spectra. All spectrum reads in
this loop call `ut.read_spectrum(path)` with no wavelength-range argument,
so they use the default `(450, 690)`. `dark_s` and `white_s` are the
spectrum halves of the reference pairs (`self.dark_meas[1]`,
`self.white_meas[1]`). Returns the spectrum and the read events. -/
def combined_spectrum (rs : String → Int × Int → List ℚ) (dark_s white_s : List ℚ) :
    Desc → List ℚ × List ReadEvent
  | (p, none) =>
      let s := read_spectrum rs p DEFAULT_LAMB_RANGE
      (normalize_array s.1 dark_s white_s, s.2)
  | (p, some q) =>
      let sa := read_spectrum rs p DEFAULT_LAMB_RANGE
      let sb := read_spectrum rs q DEFAULT_LAMB_RANGE
      (mul_arrays (normalize_array sa.1 dark_s white_s)
        (normalize_array sb.1 dark_s white_s), sa.2 ++ sb.2)

/-- The cleaning loop of `_init_dataset`, modelled at Python semantics:
`for meas in self.meas_list` keeps a position `i` that is checked against
the current length of the (mutating) list and advances by one per
iteration, and `self.meas_list.remove(meas)` deletes the first element
equal to `meas`. The loop performs at most `l.length` iterations, because
the position grows by one each step and the list never grows, so running
it with fuel equal to the initial length computes exactly the loop's
result; the fuel-exhausted branch coincides with normal loop exit. -/
def clean_go (rs : String → Int × Int → List ℚ) (dark_s white_s : List ℚ) (thr : ℚ) :
    Nat → Nat → List Desc → List Desc × List ReadEvent
  | 0, _, l => (l, [])
  | fuel + 1, i, l =>
      if h : i < l.length then
        let meas := l[i]
        let cs := combined_spectrum rs dark_s white_s meas
        let l' := if list_mean cs.1 < thr then l.erase meas else l
        let rest := clean_go rs dark_s white_s thr fuel (i + 1) l'
        (rest.1, cs.2 ++ rest.2)
      else (l, [])

/-- The cleaning pass over the candidate list (the `for` loop of
`_init_dataset` including its `remove` calls), returning the surviving
list and the spectrum reads performed. -/
def clean_pass (rs : String → Int × Int → List ℚ) (dark_s white_s : List ℚ) (thr : ℚ)
    (l : List Desc) : List Desc × List ReadEvent :=
  clean_go rs dark_s white_s thr l.length 0 l

/-- The cleaning rule exactly as the specification states it: keep a
descriptor precisely when its combined mean spectrum is not strictly below
the threshold. -/
def clean_spec (rs : String → Int × Int → List ℚ) (dark_s white_s : List ℚ) (thr : ℚ)
    (l : List Desc) : List Desc :=
  l.filter fun meas => decide (thr ≤ list_mean (combined_spectrum rs dark_s white_s meas).1)

/-- Filesystem state visible to `_init_dataset`: the pickle files that
exist (by path, with the descriptor list a load would produce) and the set
of directories. -/
structure FS where
  pickle : String → Option (List Desc)
  dirs : List String

/-- `os.mkdir` wrapped in `try ... except FileExistsError: pass`: create
the directory, treating an already-existing one as success. -/
def mkdir_tolerant (dirs : List String) (d : String) : List String :=
  if d ∈ dirs then dirs else d :: dirs

/-- Everything `_init_dataset` leaves behind: the working index
`self.meas_list`, the position permutation `self._ids`, the filesystem
state, whether a cache record was written, and the spectrum reads made. -/
structure InitResult where
  meas_list : List Desc
  ids : List Nat
  dirs : List String
  pickle : String → Option (List Desc)
  cache_written : Bool
  reads : List ReadEvent

/-- `SPECTRE._init_dataset`: resolve the cache directory (defaulting to
`.spectre_cache/`); if the cache file exists and caching is enabled, load
the working index from it and skip cleaning; otherwise create the cache
directory (tolerating an existing one), run the cleaning loop, and, when
caching is enabled, write the surviving index to the cache file. Finally
set `_ids` to `arange(len(meas_list))`, shuffled when `shuffle` is set —
`shuffle_fn` stands for the permutation `np.random.shuffle` produces. -/
def init_dataset (cfg : Config) (shuffle_fn : List Nat → List Nat)
    (rs : String → Int × Int → List ℚ) (dark_s white_s : List ℚ)
    (fs : FS) (meas0 : List Desc) : InitResult :=
  let cache_dir := cfg.cache_dir.getD defaultCacheDir
  let cache_path := joinPath cache_dir cacheFileName
  if (fs.pickle cache_path).isSome && cfg.cache then
    let loaded := (fs.pickle cache_path).getD []
    { meas_list := loaded
      ids := if cfg.shuffle then shuffle_fn (List.range loaded.length)
             else List.range loaded.length
      dirs := fs.dirs
      pickle := fs.pickle
      cache_written := false
      reads := [] }
  else
    let dirs' := mkdir_tolerant fs.dirs cache_dir
    let cleaned := clean_pass rs dark_s white_s cfg.clean_threshold meas0
    let pickle' := if cfg.cache then
        (fun p => if p = cache_path then some cleaned.1 else fs.pickle p)
      else fs.pickle
    { meas_list := cleaned.1
      ids := if cfg.shuffle then shuffle_fn (List.range cleaned.1.length)
             else List.range cleaned.1.length
      dirs := dirs'
      pickle := pickle'
      cache_written := cfg.cache
      reads := cleaned.2 }

/-- `SPECTRE._read_reference`: read the `Dark` and `White` folders under the
root via `ut.read_measurement(path)` — called with no integration time and
no wavelength range, so both reads use the declared defaults `1400` and
`(450, 690)` whatever the configuration says. Returns the two reference
pairs and the read events. -/
def read_reference (rf : String → Int → List ℚ) (rs : String → Int × Int → List ℚ)
    (cfg : Config) :
    (((List ℚ × List ℚ) × (List ℚ × List ℚ)) × List ReadEvent) :=
  let dark := read_measurement rf rs (joinPath cfg.root_dir darkName)
    DEFAULT_INT_TIME DEFAULT_LAMB_RANGE
  let white := read_measurement rf rs (joinPath cfg.root_dir whiteName)
    DEFAULT_INT_TIME DEFAULT_LAMB_RANGE
  ((dark.1, white.1), dark.2 ++ white.2)

/-- `SPECTRE._read_meas_file_singular`: `ut.read_measurement(path,
self.int_time)` (wavelength range left at its default), then normalize the
frame against the frame halves and the spectrum against the spectrum halves
of the references. `dark` and `white` are the reference pairs. -/
def read_meas_file_singular (rf : String → Int → List ℚ) (rs : String → Int × Int → List ℚ)
    (cfg : Config) (dark white : List ℚ × List ℚ) (path : String) :
    (List ℚ × List ℚ) × List ReadEvent :=
  let m := read_measurement rf rs path cfg.int_time DEFAULT_LAMB_RANGE
  ((normalize_array m.1.1 dark.1 white.1, normalize_array m.1.2 dark.2 white.2), m.2)

/-- `SPECTRE._read_meas_file` applied to a descriptor: a singular sample is
read and normalized directly; an augmented sample is the element-wise
product of its two singular reads, frames with frames and spectra with
spectra. -/
def read_meas_file (rf : String → Int → List ℚ) (rs : String → Int × Int → List ℚ)
    (cfg : Config) (dark white : List ℚ × List ℚ) :
    Desc → (List ℚ × List ℚ) × List ReadEvent
  | (p, none) => read_meas_file_singular rf rs cfg dark white p
  | (p, some q) =>
      let a := read_meas_file_singular rf rs cfg dark white p
      let b := read_meas_file_singular rf rs cfg dark white q
      ((mul_arrays a.1.1 b.1.1, mul_arrays a.1.2 b.1.2), a.2 ++ b.2)

/-- The iterator state after finalization: the working index
`self.meas_list`, the position permutation `self._ids`, and the cursor
`self.i`. -/
structure SpectreState where
  meas_list : List Desc
  ids : List Nat
  i : Nat
deriving DecidableEq

/-- `SPECTRE.send`: when the cursor is below `len(self)` (which is
`len(self._ids)`), return `self._read_meas_file(self.i)` — the descriptor at
position `self.i` of `self.meas_list` itself, not at `self._ids[self.i]` —
and advance the cursor; otherwise raise `StopIteration`, modelled as
`none`, leaving the state unchanged. The result carries the descriptor that
gets materialized. -/
def send (st : SpectreState) : Option (Desc × SpectreState) :=
  if st.i < st.ids.length then
    some (st.meas_list.getD st.i (hiddenMarker, none), { st with i := st.i + 1 })
  else none

/-- `n` successive `send` calls from a state, `none` as soon as one raises. -/
def send_iter : Nat → SpectreState → Option SpectreState
  | 0, st => some st
  | n + 1, st => (send_iter n st).bind fun s => (send s).map Prod.snd

/-! Spec-side formulations, for comparison against the code-side definitions. -/

/-- Clipping as the specification words it: values below the floor become
the floor, values above the ceiling become the ceiling, everything else is
unchanged. -/
def clip_spec (x lo hi : ℚ) : ℚ := if x < lo then lo else if hi < x then hi else x

/-- The normalization formula as the specification words it, element-wise
over three arrays of a common shape. -/
def normalize_spec : List ℚ → List ℚ → List ℚ → List ℚ
  | x :: a, y :: d, z :: w =>
      clip_spec ((x - y) / (z - y)) EPSILON 1 :: normalize_spec a d w
  | _, _, _ => []

/-! Helper lemmas. -/

lemma EPSILON_le_one : EPSILON ≤ 1 := by norm_num [EPSILON]

lemma clip_eq_clip_spec (x lo hi : ℚ) (h : lo ≤ hi) : clip x lo hi = clip_spec x lo hi := by
  unfold clip clip_spec rmin rmax
  split_ifs <;> linarith

lemma clip_bounds (x lo hi : ℚ) (h : lo ≤ hi) : lo ≤ clip x lo hi ∧ clip x lo hi ≤ hi := by
  unfold clip rmin rmax
  split_ifs <;> constructor <;> linarith

lemma clip_clip (x lo hi : ℚ) (h : lo ≤ hi) : clip (clip x lo hi) lo hi = clip x lo hi := by
  unfold clip rmin rmax
  split_ifs <;> linarith

lemma normalize_array_eq_spec (a d w : List ℚ) :
    normalize_array a d w = normalize_spec a d w := by
  induction a generalizing d w with
  | nil => cases d <;> cases w <;> rfl
  | cons x a ih =>
      cases d with
      | nil => rfl
      | cons y d =>
          cases w with
          | nil => rfl
          | cons z w =>
              simp only [normalize_array, List.zip_cons_cons, List.map_cons, normalize_spec]
              rw [clip_eq_clip_spec _ _ _ EPSILON_le_one]
              exact congrArg _ (ih d w)

lemma normalize_array_mem_bounds (a d w : List ℚ) :
    ∀ y ∈ normalize_array a d w, EPSILON ≤ y ∧ y ≤ 1 := by
  intro y hy
  unfold normalize_array at hy
  rcases List.mem_map.mp hy with ⟨adw, _, rfl⟩
  exact clip_bounds _ _ _ EPSILON_le_one

lemma normalize_array_unit_refs (a : List ℚ) (n : Nat) (hn : a.length ≤ n) :
    normalize_array a (List.replicate n 0) (List.replicate n 1)
      = a.map fun x => clip x EPSILON 1 := by
  induction a generalizing n with
  | nil => simp [normalize_array]
  | cons x a ih =>
      cases n with
      | zero => simp at hn
      | succ n =>
          simp only [List.replicate_succ, normalize_array, List.zip_cons_cons, List.map_cons]
          have hx : ((x : ℚ) - 0) / (1 - 0) = x := by norm_num
          rw [hx]
          exact congrArg _ (ih n (by simpa using hn))

/-- C5: for all arrays `raw`, `dark`, `white` with `white > dark`
element-wise, `normalize_array raw dark white` is the element-wise clip of
`(raw - dark) / (white - dark)` to `[EPSILON, 1]`, and every element of the
output lies in `[EPSILON, 1]`. -/
theorem normalize_array_is_clipped_ratio (raw dark white : List ℚ)
    (hdw : List.Forall₂ (fun x y => x < y) dark white) :
    normalize_array raw dark white = normalize_spec raw dark white
    ∧ ∀ y ∈ normalize_array raw dark white, EPSILON ≤ y ∧ y ≤ 1 :=
  ⟨normalize_array_eq_spec raw dark white, normalize_array_mem_bounds raw dark white⟩

/-- Witness for C5 at `raw = [1/2]`, `dark = [0]`, `white = [1]`. -/
theorem normalize_array_is_clipped_ratio_witness :
    List.Forall₂ (fun x y => (x : ℚ) < y) [0] [1]
    ∧ normalize_array [1/2] [0] [1] = normalize_spec [1/2] [0] [1]
    ∧ normalize_array [1/2] [0] [1] = [1/2] :=
  ⟨by norm_num,
   (normalize_array_is_clipped_ratio [1/2] [0] [1] (by norm_num)).1,
   by with_unfolding_all decide⟩

/-- C6 counterexample: with `dark = [0]`, `white = [2]` (so `white > dark`
element-wise) and `a = [2]`, the first normalization gives `[1]` but
normalizing again gives `[1/2]`: `normalize_array` is not idempotent. -/
theorem normalize_array_not_idempotent :
    List.Forall₂ (fun x y => (x : ℚ) < y) [0] [2]
    ∧ normalize_array [2] [0] [2] = [1]
    ∧ normalize_array (normalize_array [2] [0] [2]) [0] [2] = [1/2]
    ∧ normalize_array (normalize_array [2] [0] [2]) [0] [2] ≠ normalize_array [2] [0] [2] := by
  with_unfolding_all decide

/-- C6 (amended): re-normalizing with the same references is idempotent in
the special case `dark = 0` and `white = 1` element-wise, where the
normalization reduces to the clip to `[EPSILON, 1]` and clipping is
idempotent; with general references a second normalization divides again
and can change the values. -/
theorem normalize_array_idempotent_unit_refs (a : List ℚ) :
    normalize_array (normalize_array a (List.replicate a.length 0) (List.replicate a.length 1))
        (List.replicate a.length 0) (List.replicate a.length 1)
      = normalize_array a (List.replicate a.length 0) (List.replicate a.length 1) := by
  rw [normalize_array_unit_refs a a.length le_rfl,
    normalize_array_unit_refs (a.map fun x => clip x EPSILON 1) a.length (by simp),
    List.map_map]
  exact List.map_congr_left fun x _ => clip_clip x EPSILON 1 EPSILON_le_one

lemma length_bind_map {α β γ : Type} (xs : List α) (ys : List β) (g : α → β → γ) :
    (xs.bind fun a => ys.map (g a)).length = xs.length * ys.length := by
  induction xs with
  | nil => simp
  | cons x xs ih => simp [List.cons_bind, ih, Nat.succ_mul, Nat.add_comm]

/-- C4: with augmentation disabled the candidate index is exactly the
singular list (one descriptor per non-hidden, non-reference folder, second
slot empty); with augmentation enabled it is the singular list `L`,
followed by the cross list pairing each of the first `⌊N/2⌋` elements of
`L` with each of the remaining `⌈N/2⌉` elements, followed by the square
list pairing each folder with itself, for a total length of
`N + ⌊N/2⌋ * ⌈N/2⌉ + N`. -/
theorem scan_root_structure (entries : List String) (root_dir : String) :
    scan_root entries root_dir false = singular_list entries root_dir
    ∧ (∀ m ∈ singular_list entries root_dir, m.2 = none)
    ∧ scan_root entries root_dir true
        = singular_list entries root_dir
          ++ ((singular_list entries root_dir).take
                ((singular_list entries root_dir).length / 2)).bind
              (fun a => ((singular_list entries root_dir).drop
                  ((singular_list entries root_dir).length / 2)).map
                fun b => (a.1, some b.1))
          ++ (singular_list entries root_dir).map (fun m => (m.1, some m.1))
    ∧ (scan_root entries root_dir true).length
        = (singular_list entries root_dir).length
          + ((singular_list entries root_dir).length / 2)
              * (((singular_list entries root_dir).length + 1) / 2)
          + (singular_list entries root_dir).length := by
  refine ⟨rfl, ?_, rfl, ?_⟩
  · intro m hm
    rcases List.mem_map.mp hm with ⟨f, _, rfl⟩
    rfl
  · show (singular_list entries root_dir
        ++ ((singular_list entries root_dir).take _).bind _
        ++ (singular_list entries root_dir).map _).length = _
    rw [List.length_append, List.length_append, length_bind_map,
      List.length_take, List.length_drop, List.length_map,
      Nat.min_eq_left (Nat.div_le_self _ _)]
    have hceil : (singular_list entries root_dir).length
          - (singular_list entries root_dir).length / 2
        = ((singular_list entries root_dir).length + 1) / 2 := by omega
    rw [hceil]

/-- Witness for C4 at the root with folders `Dark`, `White`, `A`, `B`:
two singular descriptors, and with augmentation five candidates
(`2 + 1*1 + 2`). -/
theorem scan_root_structure_witness :
    scan_root [darkName, whiteName, "A", "B"] "root" false
        = singular_list [darkName, whiteName, "A", "B"] "root"
    ∧ (∀ m ∈ singular_list [darkName, whiteName, "A", "B"] "root", m.2 = none)
    ∧ (scan_root [darkName, whiteName, "A", "B"] "root" true).length
        = (singular_list [darkName, whiteName, "A", "B"] "root").length
          + ((singular_list [darkName, whiteName, "A", "B"] "root").length / 2)
              * (((singular_list [darkName, whiteName, "A", "B"] "root").length + 1) / 2)
          + (singular_list [darkName, whiteName, "A", "B"] "root").length
    ∧ (singular_list [darkName, whiteName, "A", "B"] "root").length = 2
    ∧ (scan_root [darkName, whiteName, "A", "B"] "root" true).length = 5 :=
  ⟨(scan_root_structure [darkName, whiteName, "A", "B"] "root").1,
   (scan_root_structure [darkName, whiteName, "A", "B"] "root").2.1,
   (scan_root_structure [darkName, whiteName, "A", "B"] "root").2.2.2,
   by with_unfolding_all decide,
   by with_unfolding_all decide⟩

/-- C1: evaluation of the cleaning loop on a candidate index of two
consecutive singular descriptors whose combined mean spectrum is
`EPSILON < 0.15` each (spectrum oracle constantly `[0]`, references
`dark = [0]`, `white = [1]`, threshold `15/100`). The loop removes the
first descriptor and then never examines the second: after
`meas_list.remove(meas)` the `for` position has already advanced past the
end of the shortened list, so the second below-threshold descriptor
survives, while the rule stated by the specification (`clean_spec`)
discards both. -/
theorem clean_pass_keeps_skipped_descriptor :
    (clean_pass (fun _ _ => [0]) [0] [1] (15/100) [("A", none), ("B", none)]).1
        = [("B", none)]
    ∧ list_mean (combined_spectrum (fun _ _ => [0]) [0] [1] ("B", none)).1 < 15/100
    ∧ clean_spec (fun _ _ => [0]) [0] [1] (15/100) [("A", none), ("B", none)] = [] := by
  with_unfolding_all decide

/-- Descriptor used in the iterator counterexamples. -/
def descA : Desc := ("A", none)

/-- Descriptor used in the iterator counterexamples. -/
def descB : Desc := ("B", none)

/-- A finalized state whose shuffle produced the permutation `[1, 0]`. -/
def stShuffled : SpectreState := { meas_list := [descA, descB], ids := [1, 0], i := 0 }

/-- A configuration with all-default parameters, for concrete evaluations. -/
def cfgPlain : Config :=
  { root_dir := "root", int_time := 1400, shuffle := true, cache_dir := none,
    clean_threshold := 15/100, lamb_range := (450, 690), cache := true, augment := true }

/-- Frame oracle distinguishing the two folders of `stShuffled`. -/
def rfAB : String → Int → List ℚ := fun p _ => if p = "A" then [1] else [2]

/-- Spectrum oracle distinguishing the two folders of `stShuffled`. -/
def rsAB : String → Int × Int → List ℚ := fun p _ => if p = "A" then [1] else [2]

/-- C2: `send` on the state with working index `[descA, descB]`, shuffled
permutation `_ids = [1, 0]` and cursor `0` materializes the descriptor at
position `0` of the index (`descA`) and advances the cursor — it indexes
`meas_list` with the cursor directly and never consults the permutation,
whereas the descriptor at position `_ids[0] = 1` is `descB`, and the two
descriptors materialize to different (frame, spectrum) pairs. -/
theorem send_ignores_permutation :
    stShuffled.ids = [1, 0]
    ∧ send stShuffled = some (descA, { meas_list := [descA, descB], ids := [1, 0], i := 1 })
    ∧ stShuffled.meas_list.getD (stShuffled.ids.getD stShuffled.i 0) descA = descB
    ∧ descA ≠ descB
    ∧ (read_meas_file rfAB rsAB cfgPlain ([0], [0]) ([4], [4]) descA).1
        ≠ (read_meas_file rfAB rsAB cfgPlain ([0], [0]) ([4], [4]) descB).1 := by
  with_unfolding_all decide

/-- C7: from a finalized state with cursor `0` over `K = ids.length`
surviving samples, the first `K` produce-next calls all succeed, each
advancing the cursor by one; any call with cursor at or past `K` signals
exhaustion (`none`, the model of `StopIteration`) without changing any
state, so no successful production ever follows the first exhaustion
signal. -/
theorem send_exhaustion (st : SpectreState) (h0 : st.i = 0) :
    (∀ n, n ≤ st.ids.length → send_iter n st = some { st with i := n })
    ∧ (∀ n, n < st.ids.length → (send { st with i := n }).isSome = true)
    ∧ (∀ s : SpectreState, s.ids = st.ids → st.ids.length ≤ s.i → send s = none) := by
  refine ⟨?_, ?_, ?_⟩
  · intro n hn
    induction n with
    | zero =>
        obtain ⟨m, ids, i⟩ := st
        simp only at h0
        simp [send_iter, h0]
    | succ n ih =>
        have hlt : n < st.ids.length := Nat.lt_of_succ_le hn
        simp [send_iter, ih (Nat.le_of_lt hlt), send, hlt]
  · intro n hn
    simp [send, hn]
  · intro s hids hi
    unfold send
    rw [if_neg]
    rw [hids]
    omega

/-- Witness for C7 with one surviving sample: one successful production,
then exhaustion. -/
theorem send_exhaustion_witness :
    send_iter 1 { meas_list := [descA], ids := [0], i := 0 }
        = some { meas_list := [descA], ids := [0], i := 1 }
    ∧ send { meas_list := [descA], ids := [0], i := 1 } = none :=
  ⟨(send_exhaustion { meas_list := [descA], ids := [0], i := 0 } rfl).1 1 (by decide),
   (send_exhaustion { meas_list := [descA], ids := [0], i := 0 } rfl).2.2
     { meas_list := [descA], ids := [0], i := 1 } rfl (by decide)⟩

/-- A configuration whose integration time and wavelength range differ from
the reader defaults. -/
def cfgCustom : Config :=
  { root_dir := "root", int_time := 800, shuffle := true, cache_dir := none,
    clean_threshold := 15/100, lamb_range := (500, 600), cache := true, augment := true }

/-- C3 counterexample: with configured integration time `800` and
wavelength range `(500, 600)`, the reference reads of the `Dark` and
`White` folders all happen at integration time `1400` and wavelength range
`(450, 690)` — `_read_reference` calls `ut.read_measurement(path)` with no
further arguments — so neither reference read uses the configured values. -/
theorem reference_reads_ignore_config :
    (read_reference (fun _ _ => []) (fun _ _ => []) cfgCustom).2
        = [ReadEvent.frame (joinPath cfgCustom.root_dir darkName) 1400,
           ReadEvent.spectrum (joinPath cfgCustom.root_dir darkName) (450, 690),
           ReadEvent.frame (joinPath cfgCustom.root_dir whiteName) 1400,
           ReadEvent.spectrum (joinPath cfgCustom.root_dir whiteName) (450, 690)]
    ∧ cfgCustom.int_time = 800
    ∧ cfgCustom.lamb_range = (500, 600)
    ∧ (800 : Int) ≠ 1400
    ∧ ((500 : Int), (600 : Int)) ≠ ((450 : Int), (690 : Int)) := by
  refine ⟨rfl, rfl, rfl, ?_, ?_⟩ <;> decide

/-- C3 (amended): for every configuration and every pair of reader oracles,
the Reference Reader reads the `Dark` and `White` folders under the root
through the external reader at the reader defaults — integration time
`1400` and wavelength range `(450, 690)` — independent of the configured
integration time and wavelength range. -/
theorem reference_reads_at_defaults (cfg : Config) (rf : String → Int → List ℚ)
    (rs : String → Int × Int → List ℚ) :
    (read_reference rf rs cfg).2
        = [ReadEvent.frame (joinPath cfg.root_dir darkName) DEFAULT_INT_TIME,
           ReadEvent.spectrum (joinPath cfg.root_dir darkName) DEFAULT_LAMB_RANGE,
           ReadEvent.frame (joinPath cfg.root_dir whiteName) DEFAULT_INT_TIME,
           ReadEvent.spectrum (joinPath cfg.root_dir whiteName) DEFAULT_LAMB_RANGE]
    ∧ (read_reference rf rs cfg).1
        = ((read_measurement rf rs (joinPath cfg.root_dir darkName)
              DEFAULT_INT_TIME DEFAULT_LAMB_RANGE).1,
           (read_measurement rf rs (joinPath cfg.root_dir whiteName)
              DEFAULT_INT_TIME DEFAULT_LAMB_RANGE).1) :=
  ⟨rfl, rfl⟩

/-- C8: whenever caching is enabled and a cache record exists at the
configured cache location, finalization loads the working index from the
record, performs no spectrum reads, writes nothing, and leaves the
directories untouched. -/
theorem cache_hit_loads_index (cfg : Config) (sf : List Nat → List Nat)
    (rs : String → Int × Int → List ℚ) (ds ws : List ℚ) (fs : FS)
    (meas0 F : List Desc) (hc : cfg.cache = true)
    (hx : fs.pickle (joinPath (cfg.cache_dir.getD defaultCacheDir) cacheFileName) = some F) :
    (init_dataset cfg sf rs ds ws fs meas0).meas_list = F
    ∧ (init_dataset cfg sf rs ds ws fs meas0).reads = []
    ∧ (init_dataset cfg sf rs ds ws fs meas0).cache_written = false
    ∧ (init_dataset cfg sf rs ds ws fs meas0).dirs = fs.dirs
    ∧ (init_dataset cfg sf rs ds ws fs meas0).pickle = fs.pickle := by
  simp [init_dataset, hx, hc]

/-- Cache-hit filesystem used by the C8 witness: the cache record at the
default location holds the one-element index `[descA]`. -/
def fsWithCache : FS :=
  { pickle := fun p => if p = joinPath defaultCacheDir cacheFileName
      then some [descA] else none,
    dirs := [] }

/-- Witness for C8: a concrete cache hit loads `[descA]` with no reads. -/
theorem cache_hit_loads_index_witness :
    (init_dataset cfgPlain id (fun _ _ => []) [] [] fsWithCache []).meas_list = [descA]
    ∧ (init_dataset cfgPlain id (fun _ _ => []) [] [] fsWithCache []).reads = []
    ∧ (init_dataset cfgPlain id (fun _ _ => []) [] [] fsWithCache []).cache_written = false
    ∧ (init_dataset cfgPlain id (fun _ _ => []) [] [] fsWithCache []).dirs = fsWithCache.dirs
    ∧ (init_dataset cfgPlain id (fun _ _ => []) [] [] fsWithCache []).pickle = fsWithCache.pickle :=
  cache_hit_loads_index cfgPlain id (fun _ _ => []) [] [] fsWithCache [] [descA]
    rfl (by with_unfolding_all decide)

lemma mem_mkdir_tolerant (dirs : List String) (d : String) : d ∈ mkdir_tolerant dirs d := by
  unfold mkdir_tolerant
  split
  · assumption
  · exact List.mem_cons_self d dirs

/-- C10: whenever the cleaning pass runs — the cache record is absent or
the caching flag is disabled — the cache directory is created (an existing
directory is tolerated), even when caching is disabled; and with caching
disabled no cache file is written, so the only filesystem change of the
cleaning pass is the directory creation. -/
theorem cleaning_creates_cache_dir (cfg : Config) (sf : List Nat → List Nat)
    (rs : String → Int × Int → List ℚ) (ds ws : List ℚ) (fs : FS) (meas0 : List Desc)
    (h : fs.pickle (joinPath (cfg.cache_dir.getD defaultCacheDir) cacheFileName) = none
        ∨ cfg.cache = false) :
    cfg.cache_dir.getD defaultCacheDir ∈ (init_dataset cfg sf rs ds ws fs meas0).dirs
    ∧ (init_dataset cfg sf rs ds ws fs meas0).dirs
        = mkdir_tolerant fs.dirs (cfg.cache_dir.getD defaultCacheDir)
    ∧ (cfg.cache = false →
        (init_dataset cfg sf rs ds ws fs meas0).cache_written = false
        ∧ (init_dataset cfg sf rs ds ws fs meas0).pickle = fs.pickle) := by
  have hcond : ((fs.pickle (joinPath (cfg.cache_dir.getD defaultCacheDir)
      cacheFileName)).isSome && cfg.cache) = false := by
    rcases h with h | h <;> simp [h]
  refine ⟨?_, ?_, ?_⟩
  · simp only [init_dataset, hcond]
    simp only [Bool.false_eq_true, if_false]
    exact mem_mkdir_tolerant _ _
  · simp [init_dataset, hcond]
  · intro hcf
    simp [init_dataset, hcond, hcf]

/-- Caching-disabled configuration for the C10 witness. -/
def cfgNoCache : Config :=
  { root_dir := "root", int_time := 1400, shuffle := false, cache_dir := none,
    clean_threshold := 15/100, lamb_range := (450, 690), cache := false, augment := false }

/-- An empty filesystem for the C10 witness. -/
def fsEmpty : FS := { pickle := fun _ => none, dirs := [] }

/-- Witness for C10: with caching disabled, finalization creates the
default cache directory and writes no cache file. -/
theorem cleaning_creates_cache_dir_witness :
    defaultCacheDir ∈ (init_dataset cfgNoCache id (fun _ _ => []) [] [] fsEmpty []).dirs
    ∧ (init_dataset cfgNoCache id (fun _ _ => []) [] [] fsEmpty []).cache_written = false
    ∧ (init_dataset cfgNoCache id (fun _ _ => []) [] [] fsEmpty []).pickle = fsEmpty.pickle := by
  have h := cleaning_creates_cache_dir cfgNoCache id (fun _ _ => []) [] [] fsEmpty [] (Or.inr rfl)
  exact ⟨h.1, (h.2.2 rfl).1, (h.2.2 rfl).2⟩

lemma combined_spectrum_reads (rs : String → Int × Int → List ℚ) (ds ws : List ℚ)
    (m : Desc) :
    ∀ e ∈ (combined_spectrum rs ds ws m).2, ∃ p, e = ReadEvent.spectrum p DEFAULT_LAMB_RANGE := by
  rcases m with ⟨p, _ | q⟩ <;> intro e he <;>
    simp [combined_spectrum, read_spectrum] at he
  · exact ⟨p, he⟩
  · rcases he with he | he
    · exact ⟨p, he⟩
    · exact ⟨q, he⟩

lemma clean_go_reads (rs : String → Int × Int → List ℚ) (ds ws : List ℚ) (thr : ℚ) :
    ∀ fuel i l, ∀ e ∈ (clean_go rs ds ws thr fuel i l).2,
      ∃ p, e = ReadEvent.spectrum p DEFAULT_LAMB_RANGE := by
  intro fuel
  induction fuel with
  | zero => intro i l e he; simp [clean_go] at he
  | succ n ih =>
      intro i l e he
      unfold clean_go at he
      split at he
      · rcases List.mem_append.mp he with h1 | h1
        · exact combined_spectrum_reads rs ds ws _ e h1
        · exact ih _ _ e h1
      · simp at he

lemma init_dataset_reads (cfg : Config) (sf : List Nat → List Nat)
    (rs : String → Int × Int → List ℚ) (ds ws : List ℚ) (fs : FS) (meas0 : List Desc) :
    ∀ e ∈ (init_dataset cfg sf rs ds ws fs meas0).reads,
      ∃ p, e = ReadEvent.spectrum p DEFAULT_LAMB_RANGE := by
  intro e he
  by_cases hc : ((fs.pickle (joinPath (cfg.cache_dir.getD defaultCacheDir)
      cacheFileName)).isSome && cfg.cache) = true
  · simp only [init_dataset, hc, if_true] at he
    simp at he
  · simp only [init_dataset] at he
    rw [if_neg hc] at he
    exact clean_go_reads rs ds ws cfg.clean_threshold _ _ _ e he

lemma read_meas_file_reads (rf : String → Int → List ℚ) (rs : String → Int × Int → List ℚ)
    (cfg : Config) (dark white : List ℚ × List ℚ) (d : Desc) :
    ∀ e ∈ (read_meas_file rf rs cfg dark white d).2,
      (∃ p, e = ReadEvent.spectrum p DEFAULT_LAMB_RANGE)
      ∨ (∃ p, e = ReadEvent.frame p cfg.int_time) := by
  rcases d with ⟨p, _ | q⟩ <;> intro e he <;>
    simp [read_meas_file, read_meas_file_singular, read_measurement, read_frame,
      read_spectrum] at he <;> tauto

/-- C9: the configured wavelength range has no influence on finalization or
on the produced samples — two configurations differing only in
`lamb_range` produce identical cleaning results and identical materialized
(frame, spectrum) pairs — and every spectrum read performed by cleaning or
materialization goes to the external reader at the default wavelength
range `(450, 690)` (frame reads use the configured integration time). -/
theorem lamb_range_independence (cfg : Config) (r r' : Int × Int)
    (sf : List Nat → List Nat) (rf : String → Int → List ℚ)
    (rs : String → Int × Int → List ℚ) (ds ws : List ℚ) (fs : FS)
    (meas0 : List Desc) (dark white : List ℚ × List ℚ) (d : Desc) :
    init_dataset { cfg with lamb_range := r } sf rs ds ws fs meas0
      = init_dataset { cfg with lamb_range := r' } sf rs ds ws fs meas0
    ∧ read_meas_file rf rs { cfg with lamb_range := r } dark white d
      = read_meas_file rf rs { cfg with lamb_range := r' } dark white d
    ∧ (∀ e ∈ (init_dataset cfg sf rs ds ws fs meas0).reads,
        ∃ p, e = ReadEvent.spectrum p DEFAULT_LAMB_RANGE)
    ∧ (∀ e ∈ (read_meas_file rf rs cfg dark white d).2,
        (∃ p, e = ReadEvent.spectrum p DEFAULT_LAMB_RANGE)
        ∨ (∃ p, e = ReadEvent.frame p cfg.int_time)) := by
  refine ⟨rfl, ?_, init_dataset_reads cfg sf rs ds ws fs meas0,
    read_meas_file_reads rf rs cfg dark white d⟩
  rcases d with ⟨p, _ | q⟩ <;> rfl

/-- Witness for C9: two concrete configurations differing only in the
wavelength range finalize to the same result and materialize a singular
descriptor to the same pair. -/
theorem lamb_range_independence_witness :
    init_dataset { cfgPlain with lamb_range := (500, 600) } id rsAB [0] [1] fsEmpty [descA]
      = init_dataset { cfgPlain with lamb_range := (450, 690) } id rsAB [0] [1] fsEmpty [descA]
    ∧ read_meas_file rfAB rsAB { cfgPlain with lamb_range := (500, 600) }
        ([0], [0]) ([4], [4]) descA
      = read_meas_file rfAB rsAB { cfgPlain with lamb_range := (450, 690) }
        ([0], [0]) ([4], [4]) descA :=
  ⟨(lamb_range_independence cfgPlain (500, 600) (450, 690) id rfAB rsAB [0] [1] fsEmpty
      [descA] ([0], [0]) ([4], [4]) descA).1,
   (lamb_range_independence cfgPlain (500, 600) (450, 690) id rfAB rsAB [0] [1] fsEmpty
      [descA] ([0], [0]) ([4], [4]) descA).2.1⟩

end Spectre
